import Mathlib

/-!
Shallow embedding of the real-time NotificationService of the
live-streaming backend (`NotificationService` class: socket handlers for
authenticate / join-stream / leave-stream / chat-message / typing /
disconnect, plus the notification send, queue-flush and viewer-count
helpers).

Modelling choices, all taken from the source:
* socket ids, user ids and stream ids are natural numbers;
* JS `Map`s become insertion-ordered association lists (`Map.set` on an
  existing key keeps its position, a new key is appended; `Map.delete`
  removes the entry) and JS `Set`s become duplicate-free lists in
  insertion order;
* the asynchronous database writes (`Stream.findByIdAndUpdate`,
  `User.findByIdAndUpdate`) either succeed or throw; this outcome is an
  environment flag `dbOk`, and a throw takes the `catch` path of the
  enclosing handler exactly as in the source;
* every `socket.emit` / `io.to(...).emit` becomes an `Emit` value in the
  order the source performs them;
* the 30-second offline debounce `setTimeout` becomes a FIFO of pending
  timers (all timers have the same delay, so they fire in creation
  order); a `timerFire` event pops and runs the oldest callback;
* chat message text is a `List Char` (JS string), `String.prototype.trim`
  is dropping whitespace at both ends, `message.length` the char count.
-/

/-- Authenticated socket info stored in `userSockets` (socketId → info). -/
structure UserInfo where
  userId : Nat
  username : String
deriving DecidableEq

/-- Projection of the persisted user record used by the service
(`User.findById`): streamer flag, chat-ban flag, follower ids, avatar. -/
structure UserRec where
  isStreamer : Bool
  isChatBanned : Bool
  followers : List Nat
  avatar : String
deriving DecidableEq

/-- A structured notification as built by the service.  The opaque `data`
payload is abstracted to the one field the claims inspect
(`data.userId`); remaining payload fields are irrelevant here. -/
structure Notification where
  ntype : String
  title : String
  nmsg : String
  dataUserId : Nat
deriving DecidableEq

/-- The chat message object broadcast as `new-message` (the `id` and
`timestamp` fields, taken from the wall clock, are omitted). -/
structure ChatMsg where
  userId : Nat
  username : String
  text : List Char
  avatar : String
deriving DecidableEq

/-- One observable output of a handler: a socket emit or a database
write performed by the service, in program order. -/
inductive Emit where
  | authenticated (socketId : Nat)
  | authenticationError (socketId : Nat)
  | errorMsg (socketId : Nat) (msg : String)
  | streamJoined (socketId streamId viewerCount : Nat)
  | viewerJoined (streamId : Nat) (username : String) (viewerCount : Nat)
  | viewerLeft (streamId : Nat) (username : String) (viewerCount : Nat)
  | viewerCountUpdate (streamId viewerCount : Nat)
  | newMessage (streamId : Nat) (m : ChatMsg)
  | notification (userId : Nat) (n : Notification)
  | dbSetOnline (userId : Nat)
  | dbSetOffline (userId : Nat)
  | userTyping (streamId : Nat) (username : String) (userId : Nat)
  | userStoppedTyping (streamId : Nat) (username : String) (userId : Nat)
deriving DecidableEq

/-- The mutable state of the `NotificationService` instance. -/
structure NSState where
  connectedUsers : List (Nat × Nat)
  userSockets : List (Nat × UserInfo)
  streamRooms : List (Nat × List Nat)
  notificationQueue : List (Nat × List Notification)
  pendingTimers : List UserInfo
deriving DecidableEq

def initState : NSState := ⟨[], [], [], [], []⟩

/-- Environment: the external user repository, the stream repository
(stream id → streamer id, for `Stream.findById` in the mention path) and
the success/failure outcome of database writes. -/
structure Env where
  users : Nat → Option UserRec
  streams : Nat → Option Nat
  dbOk : Bool

/-- `Map.prototype.get`. -/
def lookupA {α : Type} : List (Nat × α) → Nat → Option α
  | [], _ => none
  | (k, v) :: rest, key => if k = key then some v else lookupA rest key

/-- `Map.prototype.set`: update in place if the key exists (JS `Map`
keeps the original insertion position), otherwise append. -/
def setA {α : Type} : List (Nat × α) → Nat → α → List (Nat × α)
  | [], key, v => [(key, v)]
  | (k, w) :: rest, key, v =>
      if k = key then (k, v) :: rest else (k, w) :: setA rest key v

/-- `Map.prototype.delete`. -/
def eraseA {α : Type} : List (Nat × α) → Nat → List (Nat × α)
  | [], _ => []
  | (k, v) :: rest, key =>
      if k = key then eraseA rest key else (k, v) :: eraseA rest key

/-- `Set.prototype.add` (no-op when present, append otherwise). -/
def addS (l : List Nat) (x : Nat) : List Nat :=
  if x ∈ l then l else l ++ [x]

/-- `Set.prototype.delete`. -/
def eraseS (l : List Nat) (x : Nat) : List Nat :=
  l.filter (fun y => y ≠ x)

/-- Whitespace for `String.prototype.trim`. -/
def wsChar (c : Char) : Bool :=
  c == ' ' || c == '\t' || c == '\n' || c == '\r'

/-- `message.trim()`. -/
def trimText (l : List Char) : List Char :=
  ((l.dropWhile wsChar).reverse.dropWhile wsChar).reverse

/-- Does `pat` occur at the head of `l`? -/
def matchesAt : List Char → List Char → Bool
  | [], _ => true
  | _ :: _, [] => false
  | a :: as, b :: bs => a == b && matchesAt as bs

/-- `String.prototype.includes`: does `pat` occur anywhere in `l`? -/
def findSub (pat : List Char) : List Char → Bool
  | [] => matchesAt pat []
  | c :: cs => matchesAt pat (c :: cs) || findSub pat cs

def mentionMarker : List Char := "@streamer".toList

def userOnlineNotif (userId : Nat) (username : String) : Notification :=
  { ntype := "user_online", title := "User Online",
    nmsg := username ++ " is now online", dataUserId := userId }

def userOfflineNotif (userId : Nat) (username : String) : Notification :=
  { ntype := "user_offline", title := "User Offline",
    nmsg := username ++ " is now offline", dataUserId := userId }

def mentionNotif (streamerId : Nat) (senderName : String) : Notification :=
  { ntype := "chat_mention", title := "Chat Mention",
    nmsg := senderName ++ " mentioned you in chat", dataUserId := streamerId }

/-- `sendNotificationToUser`: deliver immediately when the user has a
socket in `connectedUsers`, otherwise append to that user's pending
queue (creating it on first use). -/
def sendNotificationToUser (st : NSState) (userId : Nat) (n : Notification) :
    NSState × List Emit :=
  match lookupA st.connectedUsers userId with
  | some _ => (st, [Emit.notification userId n])
  | none =>
      let q := (lookupA st.notificationQueue userId).getD []
      ({ st with notificationQueue := setA st.notificationQueue userId (q ++ [n]) }, [])

/-- The `for (const followerId of ...)` loops around
`sendNotificationToUser`, threading the state left to right. -/
def sendToAll (st : NSState) (uids : List Nat) (n : Notification) :
    NSState × List Emit :=
  match uids with
  | [] => (st, [])
  | u :: rest =>
      let p1 := sendNotificationToUser st u n
      let p2 := sendToAll p1.1 rest n
      (p2.1, p1.2 ++ p2.2)

/-- `sendPendingNotifications`: emit every queued notification in order,
then delete the queue entry; nothing happens for a missing or empty
queue. -/
def sendPendingNotifications (st : NSState) (userId : Nat) :
    NSState × List Emit :=
  match lookupA st.notificationQueue userId with
  | none => (st, [])
  | some q =>
      if q.isEmpty then (st, [])
      else ({ st with notificationQueue := eraseA st.notificationQueue userId },
            q.map (fun n => Emit.notification userId n))

/-- `notifyFollowersUserOnline`: early return when the user record is
missing or has no followers; only streamers notify their followers. -/
def notifyFollowersUserOnline (env : Env) (st : NSState)
    (userId : Nat) (username : String) : NSState × List Emit :=
  match env.users userId with
  | none => (st, [])
  | some u =>
      if u.followers.isEmpty then (st, [])
      else if u.isStreamer then
        sendToAll st u.followers (userOnlineNotif userId username)
      else (st, [])

/-- `notifyFollowersUserOffline`: only for streamers; the source then
iterates `Array.from(this.connectedUsers.keys())` — every currently
connected user — and sends each the `user_offline` notification. -/
def notifyFollowersUserOffline (env : Env) (st : NSState)
    (userId : Nat) (username : String) : NSState × List Emit :=
  match env.users userId with
  | none => (st, [])
  | some u =>
      if u.isStreamer then
        sendToAll st (st.connectedUsers.map Prod.fst)
          (userOfflineNotif userId username)
      else (st, [])

/-- `updateStreamViewerCount`: the `Stream.findByIdAndUpdate` write and
the `viewer-count-update` broadcast share one `try` block, the broadcast
written after the awaited write; when the write throws, the `catch` only
logs, so no broadcast is emitted. -/
def updateStreamViewerCount (env : Env) (streamId viewerCount : Nat) :
    List Emit :=
  if env.dbOk then [Emit.viewerCountUpdate streamId viewerCount] else []

/-- The `authenticate` handler: records the socket/user association in
both maps, then awaits `User.findByIdAndUpdate` (a throw jumps to the
`catch`, which emits `authentication_error` — the maps stay mutated),
flushes pending notifications, acknowledges, and notifies followers. -/
def handleAuthenticate (env : Env) (st : NSState)
    (socketId userId : Nat) (username : String) : NSState × List Emit :=
  let st1 := { st with
    userSockets := setA st.userSockets socketId ⟨userId, username⟩,
    connectedUsers := setA st.connectedUsers userId socketId }
  if env.dbOk then
    let p2 := sendPendingNotifications st1 userId
    let p3 := notifyFollowersUserOnline env p2.1 userId username
    (p3.1, [Emit.dbSetOnline userId] ++ p2.2 ++ [Emit.authenticated socketId] ++ p3.2)
  else
    (st1, [Emit.authenticationError socketId])

/-- The `join-stream` handler. -/
def handleJoinStream (env : Env) (st : NSState)
    (socketId streamId : Nat) : NSState × List Emit :=
  match lookupA st.userSockets socketId with
  | none => (st, [Emit.errorMsg socketId "Not authenticated"])
  | some info =>
      let mem := (lookupA st.streamRooms streamId).getD []
      let mem2 := addS mem socketId
      let st1 := { st with streamRooms := setA st.streamRooms streamId mem2 }
      let vc := mem2.length
      (st1, updateStreamViewerCount env streamId vc ++
            [Emit.viewerJoined streamId info.username vc,
             Emit.streamJoined socketId streamId vc])

/-- The `leave-stream` handler: silent when unauthenticated; the count
update and `viewer-left` only happen when the room entry exists (the
`Set.delete` of a non-member is a no-op but still broadcasts). -/
def handleLeaveStream (env : Env) (st : NSState)
    (socketId streamId : Nat) : NSState × List Emit :=
  match lookupA st.userSockets socketId with
  | none => (st, [])
  | some info =>
      match lookupA st.streamRooms streamId with
      | none => (st, [])
      | some mem =>
          let mem2 := eraseS mem socketId
          let st1 := { st with streamRooms := setA st.streamRooms streamId mem2 }
          let vc := mem2.length
          (st1, updateStreamViewerCount env streamId vc ++
                [Emit.viewerLeft streamId info.username vc])

/-- `notifyStreamerMention` (`Stream.findById` then a notification to
the stream's owner). -/
def notifyStreamerMention (env : Env) (st : NSState)
    (streamId : Nat) (senderName : String) : NSState × List Emit :=
  match env.streams streamId with
  | none => (st, [])
  | some streamerId =>
      sendNotificationToUser st streamerId (mentionNotif streamerId senderName)

/-- The `chat-message` handler: authentication, emptiness and length
validation, the `isChatBanned` gate against the live user record (a
missing record makes `user.isChatBanned` throw, caught as the generic
failure), then broadcast and the `@streamer` mention hook. -/
def handleChatMessage (env : Env) (st : NSState)
    (socketId streamId : Nat) (msg : List Char) : NSState × List Emit :=
  match lookupA st.userSockets socketId with
  | none => (st, [Emit.errorMsg socketId "Not authenticated"])
  | some info =>
      if (trimText msg).length = 0 then
        (st, [Emit.errorMsg socketId "Message cannot be empty"])
      else if msg.length > 500 then
        (st, [Emit.errorMsg socketId "Message too long"])
      else
        match env.users info.userId with
        | none => (st, [Emit.errorMsg socketId "Failed to send message"])
        | some u =>
            if u.isChatBanned then
              (st, [Emit.errorMsg socketId "You are banned from chat"])
            else
              let cm : ChatMsg := ⟨info.userId, info.username, trimText msg, u.avatar⟩
              if findSub mentionMarker msg then
                let p1 := notifyStreamerMention env st streamId info.username
                (p1.1, Emit.newMessage streamId cm :: p1.2)
              else
                (st, [Emit.newMessage streamId cm])

/-- The `typing-start` handler. -/
def handleTypingStart (st : NSState) (socketId streamId : Nat) :
    NSState × List Emit :=
  match lookupA st.userSockets socketId with
  | none => (st, [])
  | some info => (st, [Emit.userTyping streamId info.username info.userId])

/-- The `typing-stop` handler. -/
def handleTypingStop (st : NSState) (socketId streamId : Nat) :
    NSState × List Emit :=
  match lookupA st.userSockets socketId with
  | none => (st, [])
  | some info => (st, [Emit.userStoppedTyping streamId info.username info.userId])

/-- The `for (const [streamId, socketSet] of this.streamRooms)` loop of
the disconnect handler: remove the socket from every room containing it,
each removal broadcasting the new count. -/
def evictRooms (env : Env) (socketId : Nat) (username : String) :
    List (Nat × List Nat) → List (Nat × List Nat) × List Emit
  | [] => ([], [])
  | (sid, mem) :: rest =>
      if socketId ∈ mem then
        let mem2 := eraseS mem socketId
        let p := evictRooms env socketId username rest
        ((sid, mem2) :: p.1,
         (updateStreamViewerCount env sid mem2.length ++
          [Emit.viewerLeft sid username mem2.length]) ++ p.2)
      else
        let p := evictRooms env socketId username rest
        ((sid, mem) :: p.1, p.2)

/-- The `disconnect` handler: silent for unknown sockets; otherwise
deletes the user's `connectedUsers` entry (unconditionally, by user id),
deletes the socket, evicts it from every room, and schedules the
30-second offline debounce timer. -/
def handleDisconnect (env : Env) (st : NSState) (socketId : Nat) :
    NSState × List Emit :=
  match lookupA st.userSockets socketId with
  | none => (st, [])
  | some info =>
      let p := evictRooms env socketId info.username st.streamRooms
      ({ st with
          connectedUsers := eraseA st.connectedUsers info.userId,
          userSockets := eraseA st.userSockets socketId,
          streamRooms := p.1,
          pendingTimers := st.pendingTimers ++ [info] }, p.2)

/-- Firing of the oldest pending offline-debounce timer: the callback
runs only the `!this.connectedUsers.has(userId)` check; on success the
`User.findByIdAndUpdate` write (a throw aborts the callback before the
follower notification) and `notifyFollowersUserOffline`. -/
def handleTimerFire (env : Env) (st : NSState) : NSState × List Emit :=
  match st.pendingTimers with
  | [] => (st, [])
  | info :: rest =>
      let st1 := { st with pendingTimers := rest }
      match lookupA st1.connectedUsers info.userId with
      | some _ => (st1, [])
      | none =>
          if env.dbOk then
            let p := notifyFollowersUserOffline env st1 info.userId info.username
            (p.1, Emit.dbSetOffline info.userId :: p.2)
          else (st1, [])

/-- External events driving the service. -/
inductive Ev where
  | authenticate (socketId userId : Nat) (username : String)
  | joinStream (socketId streamId : Nat)
  | leaveStream (socketId streamId : Nat)
  | chatMessage (socketId streamId : Nat) (msg : List Char)
  | typingStart (socketId streamId : Nat)
  | typingStop (socketId streamId : Nat)
  | disconnect (socketId : Nat)
  | timerFire
  | sendNotif (userId : Nat) (n : Notification)

def step (env : Env) (st : NSState) : Ev → NSState × List Emit
  | .authenticate s u n => handleAuthenticate env st s u n
  | .joinStream s sid => handleJoinStream env st s sid
  | .leaveStream s sid => handleLeaveStream env st s sid
  | .chatMessage s sid m => handleChatMessage env st s sid m
  | .typingStart s sid => handleTypingStart st s sid
  | .typingStop s sid => handleTypingStop st s sid
  | .disconnect s => handleDisconnect env st s
  | .timerFire => handleTimerFire env st
  | .sendNotif u n => sendNotificationToUser st u n

/-- Run a sequence of events, accumulating the emits in order. -/
def run (env : Env) (st : NSState) : List Ev → NSState × List Emit
  | [] => (st, [])
  | e :: rest =>
      let p1 := step env st e
      let p2 := run env p1.1 rest
      (p2.1, p1.2 ++ p2.2)

/-- The viewer count carried by a single emit when it is one of the three
room-count broadcasts for `streamId` (`viewer-joined`, `viewer-left`,
`viewer-count-update`). -/
def emitRoomCount (streamId : Nat) : Emit → Option Nat
  | .viewerJoined s _ c => if s = streamId then some c else none
  | .viewerLeft s _ c => if s = streamId then some c else none
  | .viewerCountUpdate s c => if s = streamId then some c else none
  | _ => none

def lrcStep (streamId : Nat) (acc : Option Nat) (e : Emit) : Option Nat :=
  match emitRoomCount streamId e with
  | some c => some c
  | none => acc

def lrcFrom (streamId : Nat) (acc : Option Nat) (es : List Emit) : Option Nat :=
  es.foldl (lrcStep streamId) acc

/-- The count carried by the last room-count broadcast for `streamId`. -/
def lastRoomCount (es : List Emit) (streamId : Nat) : Option Nat :=
  lrcFrom streamId none es

/-- Size of a room's tracked member set (0 for an untracked room). -/
def roomSize (st : NSState) (streamId : Nat) : Nat :=
  ((lookupA st.streamRooms streamId).getD []).length

/-- The notifications delivered to `u`'s personal channel within an emit
sequence, in order. -/
def notifsTo (u : Nat) : List Emit → List Notification
  | [] => []
  | .notification v n :: rest =>
      if v = u then n :: notifsTo u rest else notifsTo u rest
  | _ :: rest => notifsTo u rest

/-- Is an emit a `viewer-count-update` broadcast? -/
def isCountUpdate : Emit → Bool
  | .viewerCountUpdate _ _ => true
  | _ => false

/-! ### Association-list and set lemmas -/

theorem lookupA_setA_self {α : Type} (l : List (Nat × α)) (k : Nat) (v : α) :
    lookupA (setA l k v) k = some v := by
  induction l with
  | nil => simp [setA, lookupA]
  | cons p rest ih =>
      obtain ⟨k1, w⟩ := p
      by_cases h : k1 = k <;> simp [setA, lookupA, h, ih]

theorem lookupA_setA_ne {α : Type} (l : List (Nat × α)) (k k' : Nat) (v : α)
    (h : k' ≠ k) : lookupA (setA l k v) k' = lookupA l k' := by
  have h2 : ¬(k = k') := fun he => h he.symm
  induction l with
  | nil => simp [setA, lookupA, h2]
  | cons p rest ih =>
      obtain ⟨k1, w⟩ := p
      by_cases h1 : k1 = k
      · subst h1
        simp [setA, lookupA, h2]
      · simp [setA, lookupA, h1, ih]

theorem lookupA_eraseA_self {α : Type} (l : List (Nat × α)) (k : Nat) :
    lookupA (eraseA l k) k = none := by
  induction l with
  | nil => simp [eraseA, lookupA]
  | cons p rest ih =>
      obtain ⟨k1, w⟩ := p
      by_cases h : k1 = k <;> simp [eraseA, lookupA, h, ih]

theorem lookupA_eraseA_ne {α : Type} (l : List (Nat × α)) (k k' : Nat)
    (h : k' ≠ k) : lookupA (eraseA l k) k' = lookupA l k' := by
  have h2 : ¬(k = k') := fun he => h he.symm
  induction l with
  | nil => simp [eraseA]
  | cons p rest ih =>
      obtain ⟨k1, w⟩ := p
      by_cases h1 : k1 = k
      · subst h1
        simp [eraseA, lookupA, h2, ih]
      · simp [eraseA, lookupA, h1, ih]

theorem lookupA_eq_none_iff {α : Type} (l : List (Nat × α)) (k : Nat) :
    lookupA l k = none ↔ k ∉ l.map Prod.fst := by
  induction l with
  | nil => simp [lookupA]
  | cons p rest ih =>
      obtain ⟨k1, w⟩ := p
      by_cases h : k1 = k
      · subst h
        simp [lookupA]
      · have h2 : ¬(k = k1) := fun he => h he.symm
        simp [lookupA, h, h2, ih]

theorem setA_keys {α : Type} (l : List (Nat × α)) (k : Nat) (v : α) :
    (setA l k v).map Prod.fst =
      if (lookupA l k).isSome then l.map Prod.fst
      else l.map Prod.fst ++ [k] := by
  induction l with
  | nil => simp [setA, lookupA]
  | cons p rest ih =>
      obtain ⟨k1, w⟩ := p
      by_cases h : k1 = k
      · subst h
        simp [setA, lookupA]
      · by_cases hs : (lookupA rest k).isSome <;>
          simp [setA, lookupA, h, ih, hs]

theorem setA_keys_nodup {α : Type} (l : List (Nat × α)) (k : Nat) (v : α)
    (h : (l.map Prod.fst).Nodup) : ((setA l k v).map Prod.fst).Nodup := by
  rw [setA_keys]
  by_cases hs : (lookupA l k).isSome
  · simpa [hs] using h
  · have hn : lookupA l k = none := Option.not_isSome_iff_eq_none.mp hs
    have hk : k ∉ l.map Prod.fst := (lookupA_eq_none_iff l k).mp hn
    simp [hs, List.nodup_append, h, hk]

theorem eraseS_not_mem (l : List Nat) (x : Nat) (h : x ∉ l) :
    eraseS l x = l := by
  unfold eraseS
  apply List.filter_eq_self.mpr
  intro a ha
  simp only [ne_eq, decide_eq_true_eq]
  exact fun hax => h (hax ▸ ha)

/-! ### State-projection lemmas: which fields each helper can touch -/

theorem sendNTU_state (st : NSState) (u : Nat) (n : Notification) :
    (sendNotificationToUser st u n).1.connectedUsers = st.connectedUsers ∧
    (sendNotificationToUser st u n).1.userSockets = st.userSockets ∧
    (sendNotificationToUser st u n).1.streamRooms = st.streamRooms ∧
    (sendNotificationToUser st u n).1.pendingTimers = st.pendingTimers := by
  cases h : lookupA st.connectedUsers u <;>
    simp [sendNotificationToUser, h]

theorem sendToAll_state (uids : List Nat) (st : NSState) (n : Notification) :
    (sendToAll st uids n).1.connectedUsers = st.connectedUsers ∧
    (sendToAll st uids n).1.userSockets = st.userSockets ∧
    (sendToAll st uids n).1.streamRooms = st.streamRooms ∧
    (sendToAll st uids n).1.pendingTimers = st.pendingTimers := by
  induction uids generalizing st with
  | nil => simp [sendToAll]
  | cons u rest ih =>
      have h1 := sendNTU_state st u n
      have h2 := ih (sendNotificationToUser st u n).1
      simp only [sendToAll]
      exact ⟨h2.1.trans h1.1, h2.2.1.trans h1.2.1,
             h2.2.2.1.trans h1.2.2.1, h2.2.2.2.trans h1.2.2.2⟩

theorem sendPending_state (st : NSState) (u : Nat) :
    (sendPendingNotifications st u).1.connectedUsers = st.connectedUsers ∧
    (sendPendingNotifications st u).1.userSockets = st.userSockets ∧
    (sendPendingNotifications st u).1.streamRooms = st.streamRooms ∧
    (sendPendingNotifications st u).1.pendingTimers = st.pendingTimers := by
  cases h : lookupA st.notificationQueue u with
  | none => simp [sendPendingNotifications, h]
  | some q =>
      by_cases hq : q.isEmpty <;> simp [sendPendingNotifications, h, hq]

theorem notifyOnline_state (env : Env) (st : NSState) (u : Nat) (name : String) :
    (notifyFollowersUserOnline env st u name).1.connectedUsers = st.connectedUsers ∧
    (notifyFollowersUserOnline env st u name).1.userSockets = st.userSockets ∧
    (notifyFollowersUserOnline env st u name).1.streamRooms = st.streamRooms ∧
    (notifyFollowersUserOnline env st u name).1.pendingTimers = st.pendingTimers := by
  cases h : env.users u with
  | none => simp [notifyFollowersUserOnline, h]
  | some r =>
      by_cases h1 : r.followers.isEmpty
      · simp [notifyFollowersUserOnline, h, h1]
      · by_cases h2 : r.isStreamer <;>
          simp [notifyFollowersUserOnline, h, h1, h2, sendToAll_state]

theorem notifyOffline_state (env : Env) (st : NSState) (u : Nat) (name : String) :
    (notifyFollowersUserOffline env st u name).1.connectedUsers = st.connectedUsers ∧
    (notifyFollowersUserOffline env st u name).1.userSockets = st.userSockets ∧
    (notifyFollowersUserOffline env st u name).1.streamRooms = st.streamRooms ∧
    (notifyFollowersUserOffline env st u name).1.pendingTimers = st.pendingTimers := by
  cases h : env.users u with
  | none => simp [notifyFollowersUserOffline, h]
  | some r =>
      by_cases h2 : r.isStreamer <;>
        simp [notifyFollowersUserOffline, h, h2, sendToAll_state]

theorem notifyMention_state (env : Env) (st : NSState) (sid : Nat) (name : String) :
    (notifyStreamerMention env st sid name).1.connectedUsers = st.connectedUsers ∧
    (notifyStreamerMention env st sid name).1.userSockets = st.userSockets ∧
    (notifyStreamerMention env st sid name).1.streamRooms = st.streamRooms ∧
    (notifyStreamerMention env st sid name).1.pendingTimers = st.pendingTimers := by
  cases h : env.streams sid with
  | none => simp [notifyStreamerMention, h]
  | some sr => simp [notifyStreamerMention, h, sendNTU_state]

/-! ### Emit-shape lemmas -/

theorem sendNTU_emits (st : NSState) (u : Nat) (n : Notification) :
    ∀ e ∈ (sendNotificationToUser st u n).2, e = Emit.notification u n := by
  cases h : lookupA st.connectedUsers u <;>
    simp [sendNotificationToUser, h]

theorem sendToAll_emits (uids : List Nat) (st : NSState) (n : Notification) :
    ∀ e ∈ (sendToAll st uids n).2, ∃ v, e = Emit.notification v n := by
  induction uids generalizing st with
  | nil => simp [sendToAll]
  | cons u rest ih =>
      intro e he
      simp only [sendToAll, List.mem_append] at he
      rcases he with he | he
      · exact ⟨u, sendNTU_emits st u n e he⟩
      · exact ih _ e he

theorem sendPending_emits (st : NSState) (u : Nat) :
    ∀ e ∈ (sendPendingNotifications st u).2, ∃ n, e = Emit.notification u n := by
  cases h : lookupA st.notificationQueue u with
  | none => simp [sendPendingNotifications, h]
  | some q =>
      by_cases hq : q.isEmpty
      · simp [sendPendingNotifications, h, hq]
      · intro e he
        simp only [sendPendingNotifications, h, hq, Bool.false_eq_true,
          if_false, List.mem_map] at he
        obtain ⟨n, _, hn⟩ := he
        exact ⟨n, hn.symm⟩

theorem notifyOnline_emits (env : Env) (st : NSState) (u : Nat) (name : String) :
    ∀ e ∈ (notifyFollowersUserOnline env st u name).2,
      ∃ v n, e = Emit.notification v n := by
  cases h : env.users u with
  | none => simp [notifyFollowersUserOnline, h]
  | some r =>
      by_cases h1 : r.followers.isEmpty
      · simp [notifyFollowersUserOnline, h, h1]
      · by_cases h2 : r.isStreamer
        · intro e he
          simp only [notifyFollowersUserOnline, h, h1, h2, Bool.false_eq_true,
            if_false, if_true] at he
          obtain ⟨v, hv⟩ := sendToAll_emits _ _ _ e he
          exact ⟨v, _, hv⟩
        · simp [notifyFollowersUserOnline, h, h1, h2]

theorem notifyOffline_emits (env : Env) (st : NSState) (u : Nat) (name : String) :
    ∀ e ∈ (notifyFollowersUserOffline env st u name).2,
      ∃ v n, e = Emit.notification v n := by
  cases h : env.users u with
  | none => simp [notifyFollowersUserOffline, h]
  | some r =>
      by_cases h2 : r.isStreamer
      · intro e he
        simp only [notifyFollowersUserOffline, h, h2, if_true] at he
        obtain ⟨v, hv⟩ := sendToAll_emits _ _ _ e he
        exact ⟨v, _, hv⟩
      · simp [notifyFollowersUserOffline, h, h2]

theorem notifyMention_emits (env : Env) (st : NSState) (sid : Nat) (name : String) :
    ∀ e ∈ (notifyStreamerMention env st sid name).2,
      ∃ v n, e = Emit.notification v n := by
  cases h : env.streams sid with
  | none => simp [notifyStreamerMention, h]
  | some sr =>
      intro e he
      simp only [notifyStreamerMention, h] at he
      exact ⟨sr, _, sendNTU_emits _ _ _ e he⟩

/-! ### Last-room-count bookkeeping -/

theorem lrcFrom_append (S : Nat) (acc : Option Nat) (a b : List Emit) :
    lrcFrom S acc (a ++ b) = lrcFrom S (lrcFrom S acc a) b := by
  simp [lrcFrom, List.foldl_append]

theorem lrcFrom_no_counts (S : Nat) (es : List Emit)
    (h : ∀ e ∈ es, emitRoomCount S e = none) :
    ∀ acc, lrcFrom S acc es = acc := by
  induction es with
  | nil => intro acc; rfl
  | cons e rest ih =>
      intro acc
      have he : emitRoomCount S e = none := h e (by simp)
      have hr : ∀ e' ∈ rest, emitRoomCount S e' = none :=
        fun e' h' => h e' (by simp [h'])
      simp [lrcFrom, lrcStep, he] at ih ⊢
      exact ih hr acc

/-! ### The disconnect eviction loop -/

theorem evict_keys (env : Env) (s : Nat) (name : String)
    (rooms : List (Nat × List Nat)) :
    (evictRooms env s name rooms).1.map Prod.fst = rooms.map Prod.fst := by
  induction rooms with
  | nil => simp [evictRooms]
  | cons p rest ih =>
      obtain ⟨k, mem⟩ := p
      by_cases hm : s ∈ mem <;> simp [evictRooms, hm, ih]

theorem evict_no_keys (env : Env) (s : Nat) (name : String) (S : Nat)
    (rooms : List (Nat × List Nat)) (h : S ∉ rooms.map Prod.fst) :
    ∀ e ∈ (evictRooms env s name rooms).2, emitRoomCount S e = none := by
  induction rooms with
  | nil => simp [evictRooms]
  | cons p rest ih =>
      obtain ⟨k, mem⟩ := p
      have hk : ¬(k = S) := fun he => h (by simp [he])
      have hr : S ∉ rest.map Prod.fst := fun hc => h (by simp [hc])
      by_cases hm : s ∈ mem
      · intro e he
        simp only [evictRooms, hm, if_pos, List.append_assoc, List.mem_append] at he
        rcases he with he | he | he
        · unfold updateStreamViewerCount at he
          by_cases hd : env.dbOk
          · simp only [hd, if_pos, List.mem_singleton] at he
            simp [he, emitRoomCount, hk]
          · simp [hd] at he
        · simp only [List.mem_singleton] at he
          simp [he, emitRoomCount, hk]
        · exact ih hr e he
      · intro e he
        simp only [evictRooms, hm, if_neg, Bool.false_eq_true, not_false_iff] at he
        exact ih hr e he

theorem evict_lookup_none (env : Env) (s : Nat) (name : String) (S : Nat)
    (rooms : List (Nat × List Nat)) (h : lookupA rooms S = none) :
    lookupA (evictRooms env s name rooms).1 S = none := by
  rw [lookupA_eq_none_iff] at h ⊢
  rwa [evict_keys]

theorem evict_mem (env : Env) (s : Nat) (name : String) (S : Nat)
    (rooms : List (Nat × List Nat)) (mem : List Nat)
    (hnd : (rooms.map Prod.fst).Nodup)
    (hm : lookupA rooms S = some mem) (hs : s ∈ mem) :
    lookupA (evictRooms env s name rooms).1 S = some (eraseS mem s) ∧
    ∀ acc, lrcFrom S acc (evictRooms env s name rooms).2 =
      some (eraseS mem s).length := by
  induction rooms with
  | nil => simp [lookupA] at hm
  | cons p rest ih =>
      obtain ⟨k, m⟩ := p
      simp only [List.map_cons, List.nodup_cons] at hnd
      by_cases hk : k = S
      · subst hk
        simp only [lookupA, if_pos] at hm
        cases hm
        have hrest : ∀ e ∈ (evictRooms env s name rest).2,
            emitRoomCount k e = none :=
          evict_no_keys env s name k rest hnd.1
        constructor
        · simp [evictRooms, hs, lookupA]
        · intro acc
          simp only [evictRooms, hs, if_pos]
          rw [lrcFrom_append, lrcFrom_no_counts k _ hrest]
          by_cases hd : env.dbOk <;>
            simp [updateStreamViewerCount, hd, lrcFrom, lrcStep, emitRoomCount]
      · simp only [lookupA, if_neg hk] at hm
        have ihr := ih hnd.2 hm
        by_cases hmm : s ∈ m
        · constructor
          · simp [evictRooms, hmm, lookupA, hk, ihr.1]
          · intro acc
            simp only [evictRooms, hmm, if_pos, List.append_assoc]
            rw [lrcFrom_append, lrcFrom_append]
            rw [ihr.2]
        · constructor
          · simp [evictRooms, hmm, lookupA, hk, ihr.1]
          · intro acc
            simp only [evictRooms, hmm, if_neg, Bool.false_eq_true, not_false_iff]
            exact ihr.2 acc
  
theorem evict_nomem (env : Env) (s : Nat) (name : String) (S : Nat)
    (rooms : List (Nat × List Nat)) (mem : List Nat)
    (hnd : (rooms.map Prod.fst).Nodup)
    (hm : lookupA rooms S = some mem) (hs : s ∉ mem) :
    lookupA (evictRooms env s name rooms).1 S = some mem ∧
    ∀ e ∈ (evictRooms env s name rooms).2, emitRoomCount S e = none := by
  induction rooms with
  | nil => simp [lookupA] at hm
  | cons p rest ih =>
      obtain ⟨k, m⟩ := p
      simp only [List.map_cons, List.nodup_cons] at hnd
      by_cases hk : k = S
      · subst hk
        simp only [lookupA, if_pos] at hm
        cases hm
        have hrest : ∀ e ∈ (evictRooms env s name rest).2,
            emitRoomCount k e = none :=
          evict_no_keys env s name k rest hnd.1
        constructor
        · simp [evictRooms, hs, lookupA]
        · intro e he
          simp only [evictRooms, hs, if_neg, Bool.false_eq_true, not_false_iff] at he
          exact hrest e he
      · simp only [lookupA, if_neg hk] at hm
        have ihr := ih hnd.2 hm
        by_cases hmm : s ∈ m
        · constructor
          · simp [evictRooms, hmm, lookupA, hk, ihr.1]
          · intro e he
            simp only [evictRooms, hmm, if_pos, List.append_assoc,
              List.mem_append] at he
            rcases he with he | he | he
            · unfold updateStreamViewerCount at he
              by_cases hd : env.dbOk
              · simp only [hd, if_pos, List.mem_singleton] at he
                simp [he, emitRoomCount, hk]
              · simp [hd] at he
            · simp only [List.mem_singleton] at he
              simp [he, emitRoomCount, hk]
            · exact ihr.2 e he
        · constructor
          · simp [evictRooms, hmm, lookupA, hk, ihr.1]
          · intro e he
            simp only [evictRooms, hmm, if_neg, Bool.false_eq_true,
              not_false_iff] at he
            exact ihr.2 e he

/-! ### Per-handler lemmas for the viewer-count invariant -/

theorem roomSize_congr (st st' : NSState) (S : Nat)
    (h : st'.streamRooms = st.streamRooms) : roomSize st' S = roomSize st S := by
  simp [roomSize, h]

theorem auth_rooms (env : Env) (st : NSState) (s u : Nat) (name : String) :
    (handleAuthenticate env st s u name).1.streamRooms = st.streamRooms := by
  by_cases hd : env.dbOk
  · simp only [handleAuthenticate, hd, if_pos]
    rw [(notifyOnline_state _ _ _ _).2.2.1, (sendPending_state _ _).2.2.1]
  · simp [handleAuthenticate, hd]

theorem auth_no_counts (env : Env) (st : NSState) (s u : Nat) (name : String)
    (S : Nat) :
    ∀ e ∈ (handleAuthenticate env st s u name).2, emitRoomCount S e = none := by
  by_cases hd : env.dbOk
  · intro e he
    simp only [handleAuthenticate, hd, if_pos, List.append_assoc,
      List.mem_append, List.mem_singleton, List.cons_append, List.mem_cons,
      List.nil_append] at he
    rcases he with he | he | he | he
    · simp [he, emitRoomCount]
    · obtain ⟨n, hn⟩ := sendPending_emits _ _ e he
      simp [hn, emitRoomCount]
    · simp [he, emitRoomCount]
    · obtain ⟨v, n, hn⟩ := notifyOnline_emits _ _ _ _ e he
      simp [hn, emitRoomCount]
  · intro e he
    simp only [handleAuthenticate, hd, Bool.false_eq_true, if_false,
      List.mem_singleton] at he
    simp [he, emitRoomCount]

theorem chat_rooms (env : Env) (st : NSState) (s sid : Nat) (msg : List Char) :
    (handleChatMessage env st s sid msg).1.streamRooms = st.streamRooms := by
  unfold handleChatMessage
  cases hus : lookupA st.userSockets s with
  | none => rfl
  | some info =>
      by_cases h1 : (trimText msg).length = 0
      · simp [h1]
      · by_cases h2 : msg.length > 500
        · simp [h1, h2]
        · cases hu : env.users info.userId with
          | none => simp [h1, h2, hu]
          | some u =>
              by_cases h3 : u.isChatBanned
              · simp [h1, h2, hu, h3]
              · by_cases h4 : findSub mentionMarker msg <;>
                  simp [h1, h2, hu, h3, h4, (notifyMention_state _ _ _ _).2.2.1]

theorem chat_no_counts (env : Env) (st : NSState) (s sid : Nat)
    (msg : List Char) (S : Nat) :
    ∀ e ∈ (handleChatMessage env st s sid msg).2, emitRoomCount S e = none := by
  unfold handleChatMessage
  cases hus : lookupA st.userSockets s with
  | none => simp [emitRoomCount]
  | some info =>
      by_cases h1 : (trimText msg).length = 0
      · simp [h1, emitRoomCount]
      · by_cases h2 : msg.length > 500
        · simp [h1, h2, emitRoomCount]
        · cases hu : env.users info.userId with
          | none => simp [h1, h2, hu, emitRoomCount]
          | some u =>
              by_cases h3 : u.isChatBanned
              · simp [h1, h2, hu, h3, emitRoomCount]
              · by_cases h4 : findSub mentionMarker msg
                · intro e he
                  simp only [h1, h2, hu, h3, h4, Bool.false_eq_true, if_false,
                    if_pos, gt_iff_lt, List.mem_cons] at he
                  rcases he with he | he
                  · simp [he, emitRoomCount]
                  · obtain ⟨v, n, hn⟩ := notifyMention_emits _ _ _ _ e he
                    simp [hn, emitRoomCount]
                · intro e he
                  simp only [h1, h2, hu, h3, h4, Bool.false_eq_true, if_false,
                    gt_iff_lt, List.mem_singleton] at he
                  simp [he, emitRoomCount]

theorem typingStart_plain (st : NSState) (s sid : Nat) (S : Nat) :
    (handleTypingStart st s sid).1.streamRooms = st.streamRooms ∧
    ∀ e ∈ (handleTypingStart st s sid).2, emitRoomCount S e = none := by
  unfold handleTypingStart
  cases lookupA st.userSockets s <;> simp [emitRoomCount]

theorem typingStop_plain (st : NSState) (s sid : Nat) (S : Nat) :
    (handleTypingStop st s sid).1.streamRooms = st.streamRooms ∧
    ∀ e ∈ (handleTypingStop st s sid).2, emitRoomCount S e = none := by
  unfold handleTypingStop
  cases lookupA st.userSockets s <;> simp [emitRoomCount]

theorem timer_rooms (env : Env) (st : NSState) :
    (handleTimerFire env st).1.streamRooms = st.streamRooms := by
  unfold handleTimerFire
  cases st.pendingTimers with
  | nil => rfl
  | cons info rest =>
      cases h : lookupA st.connectedUsers info.userId with
      | some sk => simp [h]
      | none =>
          by_cases hd : env.dbOk <;>
            simp [h, hd, (notifyOffline_state _ _ _ _).2.2.1]

theorem timer_no_counts (env : Env) (st : NSState) (S : Nat) :
    ∀ e ∈ (handleTimerFire env st).2, emitRoomCount S e = none := by
  unfold handleTimerFire
  cases st.pendingTimers with
  | nil => simp
  | cons info rest =>
      cases h : lookupA st.connectedUsers info.userId with
      | some sk => simp [h]
      | none =>
          by_cases hd : env.dbOk
          · intro e he
            simp only [h, hd, if_pos, List.mem_cons] at he
            rcases he with he | he
            · simp [he, emitRoomCount]
            · obtain ⟨v, n, hn⟩ := notifyOffline_emits _ _ _ _ e he
              simp [hn, emitRoomCount]
          · simp [h, hd]

theorem sendNotif_plain (st : NSState) (u : Nat) (n : Notification) (S : Nat) :
    (sendNotificationToUser st u n).1.streamRooms = st.streamRooms ∧
    ∀ e ∈ (sendNotificationToUser st u n).2, emitRoomCount S e = none := by
  refine ⟨(sendNTU_state _ _ _).2.2.1, ?_⟩
  intro e he
  rw [sendNTU_emits st u n e he]
  simp [emitRoomCount]


theorem count_pres_aux (S : Nat) (acc : Option Nat) (st st' : NSState)
    (es : List Emit) (hrooms : st'.streamRooms = st.streamRooms)
    (hes : ∀ e ∈ es, emitRoomCount S e = none)
    (hacc : ∀ c, acc = some c → c = roomSize st S) :
    ∀ c, lrcFrom S acc es = some c → c = roomSize st' S := by
  intro c hc
  rw [lrcFrom_no_counts S es hes acc] at hc
  rw [roomSize_congr st st' S hrooms]
  exact hacc c hc

theorem join_count (env : Env) (st : NSState) (s sid S : Nat) (acc : Option Nat)
    (hacc : ∀ c, acc = some c → c = roomSize st S) :
    ∀ c, lrcFrom S acc (handleJoinStream env st s sid).2 = some c →
      c = roomSize (handleJoinStream env st s sid).1 S := by
  cases hus : lookupA st.userSockets s with
  | none =>
      intro c hc
      simp only [handleJoinStream, hus] at hc ⊢
      simp only [lrcFrom, List.foldl_cons, List.foldl_nil, lrcStep,
        emitRoomCount] at hc
      exact hacc c hc
  | some info =>
      intro c hc
      simp only [handleJoinStream, hus] at hc ⊢
      by_cases hsS : sid = S
      · subst hsS
        by_cases hd : env.dbOk <;>
          simp only [updateStreamViewerCount, hd, Bool.false_eq_true, if_pos,
            if_false, List.nil_append, List.cons_append, List.nil_append,
            lrcFrom, List.foldl_cons, List.foldl_nil, lrcStep, emitRoomCount,
            if_true, Option.some.injEq] at hc <;>
          simp [roomSize, lookupA_setA_self, ← hc]
      · have hnc : ∀ e ∈ updateStreamViewerCount env sid
            (addS ((lookupA st.streamRooms sid).getD []) s).length ++
            [Emit.viewerJoined sid info.username
              (addS ((lookupA st.streamRooms sid).getD []) s).length,
             Emit.streamJoined s sid
              (addS ((lookupA st.streamRooms sid).getD []) s).length],
            emitRoomCount S e = none := by
          intro e he
          simp only [List.mem_append, List.mem_cons, List.not_mem_nil,
            or_false] at he
          rcases he with he | he | he
          · unfold updateStreamViewerCount at he
            by_cases hd : env.dbOk
            · simp only [hd, if_pos, List.mem_singleton] at he
              simp [he, emitRoomCount, hsS]
            · simp [hd] at he
          · simp [he, emitRoomCount, hsS]
          · simp [he, emitRoomCount]
        rw [lrcFrom_no_counts S _ hnc acc] at hc
        simpa [roomSize, lookupA_setA_ne _ _ _ _ (fun he => hsS he.symm)]
          using hacc c hc

theorem leave_count (env : Env) (st : NSState) (s sid S : Nat) (acc : Option Nat)
    (hacc : ∀ c, acc = some c → c = roomSize st S) :
    ∀ c, lrcFrom S acc (handleLeaveStream env st s sid).2 = some c →
      c = roomSize (handleLeaveStream env st s sid).1 S := by
  cases hus : lookupA st.userSockets s with
  | none =>
      intro c hc
      simp only [handleLeaveStream, hus] at hc ⊢
      simp only [lrcFrom, List.foldl_nil] at hc
      exact hacc c hc
  | some info =>
      cases hroom : lookupA st.streamRooms sid with
      | none =>
          intro c hc
          simp only [handleLeaveStream, hus, hroom] at hc ⊢
          simp only [lrcFrom, List.foldl_nil] at hc
          exact hacc c hc
      | some mem =>
          intro c hc
          simp only [handleLeaveStream, hus, hroom] at hc ⊢
          by_cases hsS : sid = S
          · subst hsS
            by_cases hd : env.dbOk <;>
              simp only [updateStreamViewerCount, hd, Bool.false_eq_true,
                if_pos, if_false, List.nil_append, List.cons_append,
                lrcFrom, List.foldl_cons, List.foldl_nil, lrcStep,
                emitRoomCount, if_true, Option.some.injEq] at hc <;>
              simp [roomSize, lookupA_setA_self, ← hc]
          · have hnc : ∀ e ∈ updateStreamViewerCount env sid
                (eraseS mem s).length ++
                [Emit.viewerLeft sid info.username (eraseS mem s).length],
                emitRoomCount S e = none := by
              intro e he
              simp only [List.mem_append, List.mem_cons, List.not_mem_nil,
                or_false] at he
              rcases he with he | he
              · unfold updateStreamViewerCount at he
                by_cases hd : env.dbOk
                · simp only [hd, if_pos, List.mem_singleton] at he
                  simp [he, emitRoomCount, hsS]
                · simp [hd] at he
              · simp [he, emitRoomCount, hsS]
            rw [lrcFrom_no_counts S _ hnc acc] at hc
            simpa [roomSize, lookupA_setA_ne _ _ _ _ (fun he => hsS he.symm)]
              using hacc c hc

theorem disc_count (env : Env) (st : NSState) (s S : Nat) (acc : Option Nat)
    (hnd : (st.streamRooms.map Prod.fst).Nodup)
    (hacc : ∀ c, acc = some c → c = roomSize st S) :
    ∀ c, lrcFrom S acc (handleDisconnect env st s).2 = some c →
      c = roomSize (handleDisconnect env st s).1 S := by
  cases hus : lookupA st.userSockets s with
  | none =>
      intro c hc
      simp only [handleDisconnect, hus] at hc ⊢
      simp only [lrcFrom, List.foldl_nil] at hc
      exact hacc c hc
  | some info =>
      intro c hc
      simp only [handleDisconnect, hus] at hc ⊢
      cases hroom : lookupA st.streamRooms S with
      | none =>
          have hnk : S ∉ st.streamRooms.map Prod.fst :=
            (lookupA_eq_none_iff _ _).mp hroom
          rw [lrcFrom_no_counts S _
            (evict_no_keys env s info.username S st.streamRooms hnk) acc] at hc
          have h2 := hacc c hc
          simpa [roomSize, evict_lookup_none env s info.username S _ hroom,
            hroom] using h2
      | some mem =>
          by_cases hsm : s ∈ mem
          · have hev := evict_mem env s info.username S st.streamRooms mem
              hnd hroom hsm
            rw [hev.2 acc] at hc
            simp only [Option.some.injEq] at hc
            simp [roomSize, hev.1, ← hc]
          · have hev := evict_nomem env s info.username S st.streamRooms mem
              hnd hroom hsm
            rw [lrcFrom_no_counts S _ hev.2 acc] at hc
            have h2 := hacc c hc
            simpa [roomSize, hev.1, hroom] using h2

/-! ### Step and run lemmas for the viewer-count invariant -/

theorem step_nodup (env : Env) (st : NSState) (ev : Ev)
    (hnd : (st.streamRooms.map Prod.fst).Nodup) :
    ((step env st ev).1.streamRooms.map Prod.fst).Nodup := by
  cases ev with
  | authenticate s u name =>
      simp only [step]; rw [auth_rooms]; exact hnd
  | joinStream s sid =>
      simp only [step, handleJoinStream]
      cases hus : lookupA st.userSockets s with
      | none => exact hnd
      | some info => exact setA_keys_nodup _ _ _ hnd
  | leaveStream s sid =>
      simp only [step, handleLeaveStream]
      cases hus : lookupA st.userSockets s with
      | none => exact hnd
      | some info =>
          cases hroom : lookupA st.streamRooms sid with
          | none => exact hnd
          | some mem => exact setA_keys_nodup _ _ _ hnd
  | chatMessage s sid msg =>
      simp only [step]; rw [chat_rooms]; exact hnd
  | typingStart s sid =>
      simp only [step]; rw [(typingStart_plain st s sid 0).1]; exact hnd
  | typingStop s sid =>
      simp only [step]; rw [(typingStop_plain st s sid 0).1]; exact hnd
  | disconnect s =>
      simp only [step, handleDisconnect]
      cases hus : lookupA st.userSockets s with
      | none => exact hnd
      | some info => rw [evict_keys]; exact hnd
  | timerFire =>
      simp only [step]; rw [timer_rooms]; exact hnd
  | sendNotif u n =>
      simp only [step]; rw [(sendNTU_state st u n).2.2.1]; exact hnd

theorem step_count (env : Env) (st : NSState) (ev : Ev) (S : Nat)
    (acc : Option Nat) (hnd : (st.streamRooms.map Prod.fst).Nodup)
    (hacc : ∀ c, acc = some c → c = roomSize st S) :
    ∀ c, lrcFrom S acc (step env st ev).2 = some c →
      c = roomSize (step env st ev).1 S := by
  cases ev with
  | authenticate s u name =>
      exact count_pres_aux S acc st _ _ (auth_rooms env st s u name)
        (auth_no_counts env st s u name S) hacc
  | joinStream s sid => exact join_count env st s sid S acc hacc
  | leaveStream s sid => exact leave_count env st s sid S acc hacc
  | chatMessage s sid msg =>
      exact count_pres_aux S acc st _ _ (chat_rooms env st s sid msg)
        (chat_no_counts env st s sid msg S) hacc
  | typingStart s sid =>
      exact count_pres_aux S acc st _ _ (typingStart_plain st s sid S).1
        (typingStart_plain st s sid S).2 hacc
  | typingStop s sid =>
      exact count_pres_aux S acc st _ _ (typingStop_plain st s sid S).1
        (typingStop_plain st s sid S).2 hacc
  | disconnect s => exact disc_count env st s S acc hnd hacc
  | timerFire =>
      exact count_pres_aux S acc st _ _ (timer_rooms env st)
        (timer_no_counts env st S) hacc
  | sendNotif u n =>
      exact count_pres_aux S acc st _ _ (sendNotif_plain st u n S).1
        (sendNotif_plain st u n S).2 hacc

theorem run_count (evs : List Ev) (env : Env) (st : NSState) (S : Nat)
    (acc : Option Nat) (hnd : (st.streamRooms.map Prod.fst).Nodup)
    (hacc : ∀ c, acc = some c → c = roomSize st S) :
    ((run env st evs).1.streamRooms.map Prod.fst).Nodup ∧
    ∀ c, lrcFrom S acc (run env st evs).2 = some c →
      c = roomSize (run env st evs).1 S := by
  induction evs generalizing st acc with
  | nil => exact ⟨hnd, fun c hc => hacc c hc⟩
  | cons e rest ih =>
      simp only [run]
      have h1 := step_nodup env st e hnd
      have h2 := step_count env st e S acc hnd hacc
      have h3 := ih (step env st e).1 (lrcFrom S acc (step env st e).2) h1 h2
      refine ⟨h3.1, ?_⟩
      intro c hc
      rw [lrcFrom_append] at hc
      exact h3.2 c hc

/-! ### Claim C1 -/

/-- C1: for every environment and every finite sequence of events, once
the sequence has been processed, the viewerCount value carried by the
last broadcast for a room (viewer-joined / viewer-left /
viewer-count-update) equals the size of that room's tracked member set
in `streamRooms`. -/
theorem c1_last_broadcast_count_eq_members (env : Env) (evs : List Ev)
    (S c : Nat)
    (h : lastRoomCount (run env initState evs).2 S = some c) :
    c = roomSize (run env initState evs).1 S := by
  have hrc := run_count evs env initState S none (by simp [initState])
    (by intro c0 hc0; simp at hc0)
  exact hrc.2 c h

/-- A concrete environment: every user exists, nobody is a streamer or
banned, no stream entities, database writes succeed. -/
def envW : Env := ⟨fun _ => some ⟨false, false, [], ""⟩, fun _ => none, true⟩

theorem c1_last_broadcast_count_eq_members_witness :
    lastRoomCount
      (run envW initState [Ev.authenticate 1 10 "alice", Ev.joinStream 1 5]).2 5
      = some 1 ∧
    1 = roomSize
      (run envW initState [Ev.authenticate 1 10 "alice", Ev.joinStream 1 5]).1 5 :=
  ⟨by decide,
   c1_last_broadcast_count_eq_members envW
     [Ev.authenticate 1 10 "alice", Ev.joinStream 1 5] 5 1 (by decide)⟩

/-! ### Pending-queue lemmas (offline enqueue behaviour) -/

/-- The external `sendNotificationToUser` calls for user `u`, as events. -/
def sendsFor (u : Nat) (ns : List Notification) : List Ev :=
  ns.map (Ev.sendNotif u)

theorem run_sends (env : Env) (u : Nat) (ns : List Notification) (st : NSState)
    (hcu : lookupA st.connectedUsers u = none) :
    (run env st (sendsFor u ns)).1.connectedUsers = st.connectedUsers ∧
    (run env st (sendsFor u ns)).1.userSockets = st.userSockets ∧
    (run env st (sendsFor u ns)).1.streamRooms = st.streamRooms ∧
    (run env st (sendsFor u ns)).1.pendingTimers = st.pendingTimers ∧
    (run env st (sendsFor u ns)).2 = [] ∧
    lookupA (run env st (sendsFor u ns)).1.notificationQueue u =
      (if ns.isEmpty then lookupA st.notificationQueue u
       else some ((lookupA st.notificationQueue u).getD [] ++ ns)) := by
  induction ns generalizing st with
  | nil => simp [sendsFor, run]
  | cons n rest ih =>
      have hzero : step env st (Ev.sendNotif u n) = sendNotificationToUser st u n := rfl
      have hst := sendNTU_state st u n
      have hcu1 : lookupA (sendNotificationToUser st u n).1.connectedUsers u = none := by
        rw [hst.1]; exact hcu
      have ihr := ih (sendNotificationToUser st u n).1 hcu1
      have hqeq : lookupA (sendNotificationToUser st u n).1.notificationQueue u
          = some ((lookupA st.notificationQueue u).getD [] ++ [n]) := by
        simp [sendNotificationToUser, hcu, lookupA_setA_self]
      have hem : (sendNotificationToUser st u n).2 = [] := by
        simp [sendNotificationToUser, hcu]
      simp only [sendsFor, List.map_cons, run, hzero] at ihr ⊢
      refine ⟨ihr.1.trans hst.1, ihr.2.1.trans hst.2.1,
        ihr.2.2.1.trans hst.2.2.1, ihr.2.2.2.1.trans hst.2.2.2,
        ?_, ?_⟩
      · rw [hem, ihr.2.2.2.2.1]; rfl
      · rw [ihr.2.2.2.2.2, hqeq]
        by_cases hre : rest.isEmpty
        · have h0 : rest = [] := List.isEmpty_iff.mp hre
          simp [h0]
        · simp [hre, List.append_assoc]

theorem notifsTo_append (u : Nat) (a b : List Emit) :
    notifsTo u (a ++ b) = notifsTo u a ++ notifsTo u b := by
  induction a with
  | nil => rfl
  | cons e rest ih =>
      cases e <;> simp [notifsTo, ih] <;> split <;> simp

theorem notifsTo_map_self (u : Nat) (q : List Notification) :
    notifsTo u (q.map (fun n => Emit.notification u n)) = q := by
  induction q with
  | nil => rfl
  | cons n rest ih => simp [notifsTo, ih]

theorem notifsTo_sendToAll (u : Nat) (uids : List Nat) (n : Notification)
    (h : u ∉ uids) (st : NSState) :
    notifsTo u (sendToAll st uids n).2 = [] := by
  induction uids generalizing st with
  | nil => rfl
  | cons v rest ih =>
      have hv : ¬(v = u) := fun he => h (he ▸ List.mem_cons_self v rest)
      have hrest : u ∉ rest := fun hc => h (List.mem_cons_of_mem v hc)
      simp only [sendToAll, notifsTo_append]
      rw [ih hrest]
      cases hl : lookupA st.connectedUsers v <;>
        simp [sendNotificationToUser, hl, notifsTo, hv]

theorem sendToAll_queue_other (uids : List Nat) (n : Notification) (u : Nat)
    (h : u ∉ uids) (st : NSState) :
    lookupA (sendToAll st uids n).1.notificationQueue u =
      lookupA st.notificationQueue u := by
  induction uids generalizing st with
  | nil => rfl
  | cons v rest ih =>
      have hv : u ≠ v := fun he => h (he ▸ List.mem_cons_self v rest)
      have hrest : u ∉ rest := fun hc => h (List.mem_cons_of_mem v hc)
      simp only [sendToAll]
      rw [ih hrest]
      cases hl : lookupA st.connectedUsers v <;>
        simp [sendNotificationToUser, hl, lookupA_setA_ne _ _ _ _ hv]

theorem notifsTo_notifyOnline (env : Env) (u : Nat) (name : String)
    (hself : ∀ r, env.users u = some r → u ∉ r.followers) (st : NSState) :
    notifsTo u (notifyFollowersUserOnline env st u name).2 = [] := by
  cases hu : env.users u with
  | none => simp [notifyFollowersUserOnline, hu, notifsTo]
  | some r =>
      by_cases h1 : r.followers.isEmpty
      · simp [notifyFollowersUserOnline, hu, h1, notifsTo]
      · by_cases h2 : r.isStreamer
        · simp only [notifyFollowersUserOnline, hu, h1, h2, Bool.false_eq_true,
            if_false, if_true]
          exact notifsTo_sendToAll u r.followers _ (hself r hu) st
        · simp [notifyFollowersUserOnline, hu, h1, h2, notifsTo]

theorem notifyOnline_queue_self (env : Env) (u : Nat) (name : String)
    (hself : ∀ r, env.users u = some r → u ∉ r.followers) (st : NSState) :
    lookupA (notifyFollowersUserOnline env st u name).1.notificationQueue u =
      lookupA st.notificationQueue u := by
  cases hu : env.users u with
  | none => simp [notifyFollowersUserOnline, hu]
  | some r =>
      by_cases h1 : r.followers.isEmpty
      · simp [notifyFollowersUserOnline, hu, h1]
      · by_cases h2 : r.isStreamer
        · simp only [notifyFollowersUserOnline, hu, h1, h2, Bool.false_eq_true,
            if_false, if_true]
          exact sendToAll_queue_other r.followers _ u (hself r hu) st
        · simp [notifyFollowersUserOnline, hu, h1, h2]

/-! ### Claim C2 -/

/-- C2: notifications sent via `sendNotificationToUser` while user `u`
has no open connection are all queued, and the next (successful)
authenticate event for `u` delivers exactly those notifications to `u`'s
personal channel, in enqueue order, each exactly once, after which `u`'s
pending queue is empty.  (The hypothesis `hself` excludes the degenerate
self-follower case, in which the online fan-out would additionally
deliver a `user_online` notification to `u` itself.) -/
theorem c2_offline_notifications_flushed_in_order (env : Env) (st : NSState)
    (u s : Nat) (name : String) (ns : List Notification)
    (hdb : env.dbOk = true)
    (hcu : lookupA st.connectedUsers u = none)
    (hq : lookupA st.notificationQueue u = none)
    (hself : ∀ r, env.users u = some r → u ∉ r.followers) :
    notifsTo u (step env (run env st (sendsFor u ns)).1
      (Ev.authenticate s u name)).2 = ns ∧
    lookupA (step env (run env st (sendsFor u ns)).1
      (Ev.authenticate s u name)).1.notificationQueue u = none := by
  have hr := run_sends env u ns st hcu
  by_cases hne : ns.isEmpty
  · have h0 : ns = [] := List.isEmpty_iff.mp hne
    subst h0
    have hqn : lookupA (run env st (sendsFor u [])).1.notificationQueue u = none := by
      rw [hr.2.2.2.2.2]; simp [hq]
    constructor
    · simp [step, handleAuthenticate, hdb, sendPendingNotifications, hqn,
        notifsTo_append, notifsTo, notifsTo_notifyOnline env u name hself]
    · simp [step, handleAuthenticate, hdb, sendPendingNotifications, hqn,
        notifyOnline_queue_self env u name hself]
  · have hqs : lookupA (run env st (sendsFor u ns)).1.notificationQueue u
        = some ns := by
      rw [hr.2.2.2.2.2]; simp [hq, hne]
    constructor
    · simp [step, handleAuthenticate, hdb, sendPendingNotifications, hqs, hne,
        notifsTo_append, notifsTo, notifsTo_map_self,
        notifsTo_notifyOnline env u name hself]
    · simp [step, handleAuthenticate, hdb, sendPendingNotifications, hqs, hne,
        notifyOnline_queue_self env u name hself, lookupA_eraseA_self]

def notifA : Notification := ⟨"new_follower", "New Follower", "b started following you", 3⟩

def notifB : Notification := ⟨"system_announcement", "Hi", "welcome", 0⟩

theorem c2_offline_notifications_flushed_in_order_witness :
    lookupA initState.connectedUsers 10 = none ∧
    lookupA initState.notificationQueue 10 = none ∧
    notifsTo 10 (step envW (run envW initState (sendsFor 10 [notifA, notifB])).1
      (Ev.authenticate 1 10 "alice")).2 = [notifA, notifB] ∧
    lookupA (step envW (run envW initState (sendsFor 10 [notifA, notifB])).1
      (Ev.authenticate 1 10 "alice")).1.notificationQueue 10 = none := by
  have hself : ∀ r, envW.users 10 = some r → 10 ∉ r.followers := by
    intro r hr
    simp only [envW, Option.some.injEq] at hr
    subst hr
    simp
  have h := c2_offline_notifications_flushed_in_order envW initState 10 1 "alice"
    [notifA, notifB] rfl rfl rfl hself
  exact ⟨rfl, rfl, h.1, h.2⟩

/-! ### Claim C3 -/

/-- 201 distinct notifications, more than the spec's example capacity. -/
def bigNotifs : List Notification :=
  (List.range 201).map (fun i => ⟨"system_announcement", "t", "m", i⟩)

/-- C3 counterexample: enqueueing 201 notifications for an offline user
leaves a queue of length 201 with the eldest notification still at the
head — no capacity is enforced and nothing is dropped, so the queue is
not bounded by the documented example capacity of 200 with an
eldest-dropped-first policy. -/
theorem c3_counterexample_queue_exceeds_capacity :
    lookupA (run envW initState (sendsFor 7 bigNotifs)).1.notificationQueue 7
      = some bigNotifs ∧
    bigNotifs.length = 201 ∧
    bigNotifs.head? = some ⟨"system_announcement", "t", "m", 0⟩ := by
  refine ⟨?_, by simp [bigNotifs], by rfl⟩
  have hr := run_sends envW 7 bigNotifs initState rfl
  rw [hr.2.2.2.2.2]
  have hie : bigNotifs.isEmpty = false := by decide
  simp [hie, initState, lookupA]

/-- C3 (amended): the pending queue is unbounded: an enqueue for an
offline user always appends, and after any non-empty sequence of
enqueues the queue holds exactly those notifications, in order, with
none dropped. -/
theorem c3_amended_queue_unbounded (env : Env) (st : NSState) (u : Nat)
    (ns : List Notification) (hne : ns ≠ [])
    (hcu : lookupA st.connectedUsers u = none)
    (hq : lookupA st.notificationQueue u = none) :
    lookupA (run env st (sendsFor u ns)).1.notificationQueue u = some ns := by
  have hr := run_sends env u ns st hcu
  rw [hr.2.2.2.2.2, hq]
  simp [List.isEmpty_iff, hne]

theorem c3_amended_queue_unbounded_witness :
    [notifA] ≠ ([] : List Notification) ∧
    lookupA initState.connectedUsers 7 = none ∧
    lookupA initState.notificationQueue 7 = none ∧
    lookupA (run envW initState (sendsFor 7 [notifA])).1.notificationQueue 7
      = some [notifA] :=
  ⟨by simp, rfl, rfl,
   c3_amended_queue_unbounded envW initState 7 [notifA] (by simp) rfl rfl⟩

/-! ### Claim C4 -/

theorem filter_false_nil {α : Type} {p : α → Bool} (es : List α)
    (h : ∀ e ∈ es, p e = false) : es.filter p = [] := by
  induction es with
  | nil => rfl
  | cons e rest ih =>
      have he := h e (by simp)
      simp only [List.filter_cons, he, Bool.false_eq_true, if_false]
      exact ih (fun e' h' => h e' (by simp [h']))

theorem isCountUpdate_false_of_no_count (e : Emit)
    (h : ∀ S, emitRoomCount S e = none) : isCountUpdate e = false := by
  cases e with
  | viewerCountUpdate sid c => exact absurd (h sid) (by simp [emitRoomCount])
  | _ => rfl

theorem evict_vcu_false (env : Env) (s : Nat) (name : String)
    (rooms : List (Nat × List Nat)) (hdb : env.dbOk = false) :
    ∀ e ∈ (evictRooms env s name rooms).2, isCountUpdate e = false := by
  induction rooms with
  | nil => simp [evictRooms]
  | cons p rest ih =>
      obtain ⟨k, mem⟩ := p
      by_cases hm : s ∈ mem
      · intro e he
        simp only [evictRooms, hm, if_pos, updateStreamViewerCount, hdb,
          Bool.false_eq_true, if_false, List.nil_append, List.cons_append,
          List.mem_cons, List.mem_append] at he
        rcases he with he | he
        · simp [he, isCountUpdate]
        · exact ih e he
      · intro e he
        simp only [evictRooms, hm, if_neg, Bool.false_eq_true,
          not_false_iff] at he
        exact ih e he

/-- Like `envW`, but every database write fails. -/
def envF : Env := ⟨fun _ => some ⟨false, false, [], ""⟩, fun _ => none, false⟩

/-- C4 counterexample: with a failing persistence write, a join that
changes the room's member set (to size 1) produces no
`viewer-count-update` broadcast at all — the broadcast is not emitted
regardless of the write's outcome. -/
theorem c4_counterexample_failed_write_suppresses_broadcast :
    (run envF initState [Ev.authenticate 1 10 "a", Ev.joinStream 1 5]).2.filter
      isCountUpdate = [] ∧
    roomSize (run envF initState
      [Ev.authenticate 1 10 "a", Ev.joinStream 1 5]).1 5 = 1 := by
  decide

/-- C4 (amended): the `viewer-count-update` broadcast is emitted only
when the persisted-snapshot write succeeds; when the write fails (the
error being only logged), no handler emits any `viewer-count-update`,
while the `viewer-joined` event of a join is still emitted carrying the
new in-memory count. -/
theorem c4_amended_no_count_broadcast_on_failed_write (env : Env)
    (hdb : env.dbOk = false) :
    (∀ st ev, (step env st ev).2.filter isCountUpdate = []) ∧
    (∀ st s sid info, lookupA st.userSockets s = some info →
      Emit.viewerJoined sid info.username
        ((addS ((lookupA st.streamRooms sid).getD []) s).length)
        ∈ (step env st (Ev.joinStream s sid)).2) := by
  constructor
  · intro st ev
    apply filter_false_nil
    cases ev with
    | authenticate s u name =>
        exact fun e he => isCountUpdate_false_of_no_count e
          (fun S => auth_no_counts env st s u name S e he)
    | joinStream s sid =>
        intro e he
        simp only [step, handleJoinStream] at he
        cases hus : lookupA st.userSockets s with
        | none => rw [hus] at he; simp at he; simp [he, isCountUpdate]
        | some info =>
            rw [hus] at he
            simp only [updateStreamViewerCount, hdb, Bool.false_eq_true,
              if_false, List.nil_append, List.mem_cons, List.not_mem_nil,
              or_false] at he
            rcases he with he | he <;> simp [he, isCountUpdate]
    | leaveStream s sid =>
        intro e he
        simp only [step, handleLeaveStream] at he
        cases hus : lookupA st.userSockets s with
        | none => rw [hus] at he; simp at he
        | some info =>
            rw [hus] at he
            cases hroom : lookupA st.streamRooms sid with
            | none => rw [hroom] at he; simp at he
            | some mem =>
                rw [hroom] at he
                simp only [updateStreamViewerCount, hdb, Bool.false_eq_true,
                  if_false, List.nil_append, List.mem_singleton] at he
                simp [he, isCountUpdate]
    | chatMessage s sid msg =>
        exact fun e he => isCountUpdate_false_of_no_count e
          (fun S => chat_no_counts env st s sid msg S e he)
    | typingStart s sid =>
        exact fun e he => isCountUpdate_false_of_no_count e
          (fun S => (typingStart_plain st s sid S).2 e he)
    | typingStop s sid =>
        exact fun e he => isCountUpdate_false_of_no_count e
          (fun S => (typingStop_plain st s sid S).2 e he)
    | disconnect s =>
        intro e he
        simp only [step, handleDisconnect] at he
        cases hus : lookupA st.userSockets s with
        | none => rw [hus] at he; simp at he
        | some info =>
            rw [hus] at he
            exact evict_vcu_false env s info.username st.streamRooms hdb e he
    | timerFire =>
        exact fun e he => isCountUpdate_false_of_no_count e
          (fun S => timer_no_counts env st S e he)
    | sendNotif u n =>
        exact fun e he => isCountUpdate_false_of_no_count e
          (fun S => (sendNotif_plain st u n S).2 e he)
  · intro st s sid info hus
    simp [step, handleJoinStream, hus, updateStreamViewerCount, hdb]

theorem c4_amended_no_count_broadcast_on_failed_write_witness :
    envF.dbOk = false ∧
    (step envF (run envF initState [Ev.authenticate 1 10 "a"]).1
      (Ev.joinStream 1 5)).2.filter isCountUpdate = [] ∧
    Emit.viewerJoined 5 "a" 1 ∈ (step envF (run envF initState
      [Ev.authenticate 1 10 "a"]).1 (Ev.joinStream 1 5)).2 := by
  have h := c4_amended_no_count_broadcast_on_failed_write envF rfl
  refine ⟨rfl, h.1 _ _, ?_⟩
  exact h.2 (run envF initState [Ev.authenticate 1 10 "a"]).1 1 5 ⟨10, "a"⟩
    (by decide)

/-! ### Claim C5 -/

/-- User 10 authenticates, disconnects (arming the debounce timer),
reconnects on socket 2, opens a second connection on socket 3, closes
socket 2; then the first timer fires. -/
def c5evs : List Ev :=
  [Ev.authenticate 1 10 "n", Ev.disconnect 1, Ev.authenticate 2 10 "n",
   Ev.authenticate 3 10 "n", Ev.disconnect 2, Ev.timerFire]

/-- C5 counterexample: user 10 re-authenticates within the debounce
window (twice), yet when the timer fires the offline transition
(`isOnline := false` write) still happens — while socket 3 is still an
open authenticated connection of user 10.  The disconnect handler
deletes the `connectedUsers` entry by user id unconditionally, so the
timer's zero-connection check misfires for multi-connection users. -/
theorem c5_counterexample_offline_with_live_connection :
    Emit.dbSetOffline 10 ∈ (run envW initState c5evs).2 ∧
    lookupA (run envW initState c5evs).1.userSockets 3
      = some ⟨10, "n"⟩ := by
  decide

/-- C5 (amended): the offline transition fires exactly when the fired
timer's user has no entry in the `connectedUsers` map at firing time
(re-authentication re-inserts that entry and suppresses the transition,
but because `connectedUsers` tracks a single socket per user, a
disconnect of any one of several concurrent connections removes the
entry, and the transition can fire while another connection of the user
is still open). -/
theorem c5_amended_offline_only_without_connected_entry (env : Env)
    (st : NSState) (u : Nat)
    (h : Emit.dbSetOffline u ∈ (handleTimerFire env st).2) :
    lookupA st.connectedUsers u = none := by
  obtain ⟨cu, us, rooms, nq, timers⟩ := st
  cases timers with
  | nil => simp [handleTimerFire] at h
  | cons info rest =>
      cases hcu : lookupA cu info.userId with
      | some sk => simp [handleTimerFire, hcu] at h
      | none =>
          by_cases hd : env.dbOk
          · simp only [handleTimerFire, hcu, hd, if_pos, List.mem_cons] at h
            rcases h with h | h
            · have hu : u = info.userId := by injection h
              rw [hu]
              exact hcu
            · obtain ⟨v, n, hn⟩ := notifyOffline_emits env _ info.userId
                info.username _ h
              exact absurd hn (by simp)
          · simp [handleTimerFire, hcu, hd] at h

theorem c5_amended_offline_only_without_connected_entry_witness :
    Emit.dbSetOffline 10 ∈ (handleTimerFire envW (run envW initState
      [Ev.authenticate 1 10 "n", Ev.disconnect 1]).1).2 ∧
    lookupA (run envW initState
      [Ev.authenticate 1 10 "n", Ev.disconnect 1]).1.connectedUsers 10
      = none :=
  ⟨by decide,
   c5_amended_offline_only_without_connected_entry envW
     (run envW initState [Ev.authenticate 1 10 "n", Ev.disconnect 1]).1 10
     (by decide)⟩

/-! ### Claim C6 -/

/-- User 10 is a streamer whose only follower is user 20; every other
user is a plain non-streamer. -/
def env6 : Env :=
  ⟨fun i => if i = 10 then some ⟨true, false, [20], ""⟩
            else some ⟨false, false, [], ""⟩,
   fun _ => none, true⟩

/-- Streamer 10 authenticates, non-follower 30 authenticates, streamer
10 disconnects, and the debounce timer fires. -/
def c6evs : List Ev :=
  [Ev.authenticate 1 10 "s", Ev.authenticate 2 30 "w", Ev.disconnect 1,
   Ev.timerFire]

/-- C6 at the failing input: when streamer 10 (whose follower set is
exactly {20}) goes offline, the connected non-follower 30 receives the
`user_offline` notification while the (offline) follower 20 receives
nothing at all — `notifyFollowersUserOffline` iterates every currently
connected user instead of the streamer's followers. -/
theorem c6_user_offline_goes_to_all_connected_users :
    env6.users 10 = some ⟨true, false, [20], ""⟩ ∧
    Emit.notification 30 (userOfflineNotif 10 "s")
      ∈ (run env6 initState c6evs).2 ∧
    notifsTo 20 (run env6 initState c6evs).2 = [] := by
  decide

/-! ### Claim C7 -/

/-- C7 counterexample: a second `authenticate` on the same connection is
not rejected — there is no `AlreadyAuthenticated` check.  Both calls
acknowledge with `authenticated`, no error event is emitted, and the
connection's user association is reassigned from user 10 to user 20. -/
theorem c7_counterexample_second_authenticate_succeeds :
    lookupA (run envW initState
      [Ev.authenticate 1 10 "alice", Ev.authenticate 1 20 "bob"]).1.userSockets 1
      = some ⟨20, "bob"⟩ ∧
    (run envW initState
      [Ev.authenticate 1 10 "alice", Ev.authenticate 1 20 "bob"]).2.count
      (Emit.authenticated 1) = 2 ∧
    Emit.authenticationError 1 ∉ (run envW initState
      [Ev.authenticate 1 10 "alice", Ev.authenticate 1 20 "bob"]).2 := by
  decide

/-- C7 (amended): a second authenticate on an already-authenticated
connection does not fail and is not a no-op: it overwrites the
connection's association, so the socket maps to the latest
userId/username pair, and the second call still acknowledges with
`authenticated`. -/
theorem c7_amended_second_authenticate_overwrites (env : Env) (st : NSState)
    (s u1 u2 : Nat) (n1 n2 : String) (hdb : env.dbOk = true) :
    lookupA (step env (step env st (Ev.authenticate s u1 n1)).1
      (Ev.authenticate s u2 n2)).1.userSockets s = some ⟨u2, n2⟩ ∧
    Emit.authenticated s ∈ (step env (step env st (Ev.authenticate s u1 n1)).1
      (Ev.authenticate s u2 n2)).2 := by
  constructor
  · simp only [step, handleAuthenticate, hdb, if_true]
    rw [(notifyOnline_state _ _ _ _).2.1, (sendPending_state _ _).2.1]
    exact lookupA_setA_self _ _ _
  · simp only [step, handleAuthenticate, hdb, if_true]
    simp

theorem c7_amended_second_authenticate_overwrites_witness :
    envW.dbOk = true ∧
    lookupA (step envW (step envW initState (Ev.authenticate 1 10 "alice")).1
      (Ev.authenticate 1 20 "bob")).1.userSockets 1 = some ⟨20, "bob"⟩ ∧
    Emit.authenticated 1 ∈ (step envW (step envW initState
      (Ev.authenticate 1 10 "alice")).1 (Ev.authenticate 1 20 "bob")).2 := by
  have h := c7_amended_second_authenticate_overwrites envW initState 1 10 20
    "alice" "bob" rfl
  exact ⟨rfl, h.1, h.2⟩

/-! ### Claim C8 -/

/-- C8: a chat message from a sender whose live user record has the
chat-ban flag set is never broadcast as `new-message` to anyone, and
whenever it passes the emptiness/length validation the handler rejects
it with the ban error emitted only to the sender's own socket. -/
theorem c8_banned_sender_rejected_never_broadcast (env : Env) (st : NSState)
    (s sid : Nat) (msg : List Char) (info : UserInfo) (u : UserRec)
    (hus : lookupA st.userSockets s = some info)
    (hu : env.users info.userId = some u)
    (hban : u.isChatBanned = true) :
    (∀ sid2 cm, Emit.newMessage sid2 cm ∉
      (step env st (Ev.chatMessage s sid msg)).2) ∧
    ((trimText msg).length ≠ 0 → ¬(msg.length > 500) →
      step env st (Ev.chatMessage s sid msg) =
        (st, [Emit.errorMsg s "You are banned from chat"])) := by
  by_cases h1 : (trimText msg).length = 0
  · constructor
    · intro sid2 cm
      simp [step, handleChatMessage, hus, h1]
    · intro hne
      exact absurd h1 hne
  · by_cases h2 : msg.length > 500
    · constructor
      · intro sid2 cm
        simp [step, handleChatMessage, hus, h1, h2]
      · intro _ hn2
        exact absurd h2 hn2
    · constructor
      · intro sid2 cm
        simp [step, handleChatMessage, hus, h1, h2, hu, hban]
      · intro _ _
        simp [step, handleChatMessage, hus, h1, h2, hu, hban]

/-- Every user is chat-banned; database writes succeed. -/
def envB : Env := ⟨fun _ => some ⟨false, true, [], ""⟩, fun _ => none, true⟩

theorem c8_banned_sender_rejected_never_broadcast_witness :
    lookupA (run envB initState [Ev.authenticate 1 10 "a"]).1.userSockets 1
      = some ⟨10, "a"⟩ ∧
    envB.users 10 = some ⟨false, true, [], ""⟩ ∧
    step envB (run envB initState [Ev.authenticate 1 10 "a"]).1
      (Ev.chatMessage 1 5 "hello".toList) =
      ((run envB initState [Ev.authenticate 1 10 "a"]).1,
       [Emit.errorMsg 1 "You are banned from chat"]) := by
  have h := c8_banned_sender_rejected_never_broadcast envB
    (run envB initState [Ev.authenticate 1 10 "a"]).1 1 5 "hello".toList
    ⟨10, "a"⟩ ⟨false, true, [], ""⟩ (by decide) rfl rfl
  exact ⟨by decide, rfl, h.2 (by decide) (by decide)⟩

/-! ### Claim C9 -/

/-- C9: for an authenticated, non-banned sender with a live user record,
a chat message of 501 characters is rejected with a single validation
error to the sender and never broadcast, while a message of exactly 500
characters that is non-empty after trimming is broadcast as
`new-message` (with the trimmed text). -/
theorem c9_length_validation_boundary (env : Env) (st : NSState)
    (s sid : Nat) (msg : List Char) (info : UserInfo) (u : UserRec)
    (hus : lookupA st.userSockets s = some info)
    (hu : env.users info.userId = some u)
    (hban : u.isChatBanned = false) :
    (msg.length = 501 →
      (∀ sid2 cm, Emit.newMessage sid2 cm ∉
        (step env st (Ev.chatMessage s sid msg)).2) ∧
      ((step env st (Ev.chatMessage s sid msg)).2 =
          [Emit.errorMsg s "Message cannot be empty"] ∨
       (step env st (Ev.chatMessage s sid msg)).2 =
          [Emit.errorMsg s "Message too long"])) ∧
    (msg.length = 500 → (trimText msg).length ≠ 0 →
      Emit.newMessage sid ⟨info.userId, info.username, trimText msg, u.avatar⟩
        ∈ (step env st (Ev.chatMessage s sid msg)).2) := by
  constructor
  · intro h501
    by_cases h1 : (trimText msg).length = 0
    · constructor
      · intro sid2 cm
        simp [step, handleChatMessage, hus, h1]
      · left
        simp [step, handleChatMessage, hus, h1]
    · have h2 : msg.length > 500 := by omega
      constructor
      · intro sid2 cm
        simp [step, handleChatMessage, hus, h1, h2]
      · right
        simp [step, handleChatMessage, hus, h1, h2]
  · intro h500 h1
    have h2 : ¬(msg.length > 500) := by omega
    by_cases h4 : findSub mentionMarker msg <;>
      simp [step, handleChatMessage, hus, h1, h2, hu, hban, h4]

def msg500 : List Char := List.replicate 500 'a'

def msg501 : List Char := List.replicate 501 'a'

set_option maxRecDepth 100000 in
theorem c9_length_validation_boundary_witness :
    lookupA (run envW initState [Ev.authenticate 1 10 "a"]).1.userSockets 1
      = some ⟨10, "a"⟩ ∧
    msg501.length = 501 ∧ msg500.length = 500 ∧
    (trimText msg500).length ≠ 0 ∧
    Emit.newMessage 5 ⟨10, "a", trimText msg501, ""⟩
      ∉ (step envW (run envW initState [Ev.authenticate 1 10 "a"]).1
          (Ev.chatMessage 1 5 msg501)).2 ∧
    Emit.newMessage 5 ⟨10, "a", trimText msg500, ""⟩
      ∈ (step envW (run envW initState [Ev.authenticate 1 10 "a"]).1
          (Ev.chatMessage 1 5 msg500)).2 := by
  have h := c9_length_validation_boundary envW
    (run envW initState [Ev.authenticate 1 10 "a"]).1 1 5 msg501
    ⟨10, "a"⟩ ⟨false, false, [], ""⟩ (by decide) rfl rfl
  have h2 := c9_length_validation_boundary envW
    (run envW initState [Ev.authenticate 1 10 "a"]).1 1 5 msg500
    ⟨10, "a"⟩ ⟨false, false, [], ""⟩ (by decide) rfl rfl
  have h501 : msg501.length = 501 := by simp [msg501]
  have h500 : msg500.length = 500 := by simp [msg500]
  have htrim : (trimText msg500).length ≠ 0 := by decide
  exact ⟨by decide, h501, h500, htrim, (h.1 h501).1 5 _, h2.2 h500 htrim⟩

/-! ### Claim C10 -/

/-- C10: a `leave-stream` from an authenticated connection that is not a
member of an existing, non-empty room (with the snapshot write
succeeding) still emits a `viewer-count-update` and a `viewer-left`
carrying the leaver's username and the unchanged count, while the room's
member set is unchanged; if the room was never created, nothing is
emitted and the state is untouched. -/
theorem c10_leave_nonmember_still_broadcasts (env : Env) (st : NSState)
    (s sid : Nat) (info : UserInfo) (mem : List Nat)
    (hdb : env.dbOk = true)
    (hus : lookupA st.userSockets s = some info) :
    (lookupA st.streamRooms sid = some mem → mem ≠ [] → s ∉ mem →
      (step env st (Ev.leaveStream s sid)).2 =
        [Emit.viewerCountUpdate sid mem.length,
         Emit.viewerLeft sid info.username mem.length] ∧
      lookupA (step env st (Ev.leaveStream s sid)).1.streamRooms sid
        = some mem) ∧
    (lookupA st.streamRooms sid = none →
      step env st (Ev.leaveStream s sid) = (st, [])) := by
  constructor
  · intro hroom _ hs
    have hera : eraseS mem s = mem := eraseS_not_mem mem s hs
    constructor
    · simp [step, handleLeaveStream, hus, hroom, hera,
        updateStreamViewerCount, hdb]
    · simp [step, handleLeaveStream, hus, hroom, hera, lookupA_setA_self]
  · intro hroom
    simp [step, handleLeaveStream, hus, hroom]

/-- The state after streamer "a" (socket 1) and viewer "b" (socket 2)
authenticate and socket 2 joins stream 5. -/
def c10st : NSState :=
  (run envW initState [Ev.authenticate 1 10 "a", Ev.authenticate 2 20 "b",
    Ev.joinStream 2 5]).1

theorem c10_leave_nonmember_still_broadcasts_witness :
    lookupA c10st.userSockets 1 = some ⟨10, "a"⟩ ∧
    lookupA c10st.streamRooms 5 = some [2] ∧
    [2] ≠ ([] : List Nat) ∧ (1 : Nat) ∉ [2] ∧
    (step envW c10st (Ev.leaveStream 1 5)).2 =
      [Emit.viewerCountUpdate 5 1, Emit.viewerLeft 5 "a" 1] ∧
    lookupA (step envW c10st (Ev.leaveStream 1 5)).1.streamRooms 5
      = some [2] ∧
    lookupA c10st.streamRooms 99 = none ∧
    step envW c10st (Ev.leaveStream 1 99) = (c10st, []) := by
  have h := c10_leave_nonmember_still_broadcasts envW c10st 1 5 ⟨10, "a"⟩ [2]
    rfl (by decide)
  have h99 := c10_leave_nonmember_still_broadcasts envW c10st 1 99 ⟨10, "a"⟩ []
    rfl (by decide)
  have h1 := h.1 (by decide) (by decide) (by decide)
  exact ⟨by decide, by decide, by decide, by decide, h1.1, h1.2, by decide,
    h99.2 (by decide)⟩
